import Mathlib

/-!
Verification development for the Dynamatic handshake-circuit transformation
passes: a shallow embedding of the TableGen interface verifiers
(`SOSTInterface`, `MergeLikeOpInterface`, `BufferOpInterface`) and of the
experimental passes (`HandshakePlaceBuffersCustom`, `HandshakeSpeculation`,
`SpecAnnotatePaths`) together with the buffer-placement cycle-breaking
constraint, with theorems settling the specified properties.
-/

/-- A shallow model of the MLIR types that flow through handshake channels:
`NoneType` (pure control token, no payload), integers of a given width, and
floats. Only type identity matters to the verifiers being modelled. -/
inductive MLIRType where
  | noneType
  | int (width : Nat)
  | float
  deriving DecidableEq, Repr

/-- Model of `mlir::Type::isa<mlir::NoneType>()` as used by
`SOSTInterface::sostIsControl`. -/
def isaNoneType : MLIRType → Bool
  | MLIRType.noneType => true
  | _ => false

/-- An operation implementing `SOSTInterface` (Sized Operation with Single
Type), as seen by the interface: the types of its operand ports, the types of
its result ports, and the two interface methods `getSize` and `getDataType`
(which concrete operations may override, so they are carried as data rather
than computed from the port lists). -/
structure SOSTOp where
  operandTypes : List MLIRType
  resultTypes : List MLIRType
  size : Nat
  dataType : MLIRType
  deriving DecidableEq, Repr

/-- The default implementation of `SOSTInterface::getDataType`: the type of
the first operation operand (`getOperands().front().getType()`). `front()` on
an empty operand range is undefined behaviour in C++, so the embedding
returns `Option`: `none` exactly when there is no operand. -/
def SOSTOp.getDataTypeDefault (op : SOSTOp) : Option MLIRType :=
  op.operandTypes.head?

/-- The default implementation of `SOSTInterface::getSize`: the number of
operation operands (`getNumOperands()`). -/
def SOSTOp.getSizeDefault (op : SOSTOp) : Nat :=
  op.operandTypes.length

/-- The default implementation of `SOSTInterface::sostIsControl`: the
operation is a control operation iff its data type `isa<mlir::NoneType>`. -/
def sostIsControl (op : SOSTOp) : Bool :=
  isaNoneType op.dataType

/-- Structured form of the errors emitted by the `SOSTInterface` verifier. -/
inductive SOSTVerifyError where
  | sizeTooSmall (size : Nat)
  | operandTypeMismatch (dataType operandType : MLIRType)
  deriving DecidableEq, Repr

/-- The `SOSTInterface` verifier: fails if `getSize() < 1`; otherwise scans
the operands in order and fails at the first operand whose type differs from
`getDataType()`, reporting both types; otherwise succeeds. Result ports are
not inspected. -/
def sostVerify (op : SOSTOp) : Except SOSTVerifyError Unit :=
  if op.size < 1 then
    Except.error (SOSTVerifyError.sizeTooSmall op.size)
  else
    match op.operandTypes.find? (fun t => !(t == op.dataType)) with
    | some t => Except.error (SOSTVerifyError.operandTypeMismatch op.dataType t)
    | none => Except.ok ()

/-- An operation implementing `MergeLikeOpInterface`, as seen by its
verifier: the types of the data operands being merged (`getDataOperands`)
and the type of result 0 (`$_op->getResult(0).getType()`). -/
structure MergeLikeOp where
  dataOperandTypes : List MLIRType
  resultType : MLIRType
  deriving DecidableEq, Repr

/-- Structured form of the errors emitted by the `MergeLikeOpInterface`
verifier. -/
inductive MergeLikeVerifyError where
  | noDataOperand
  | typeMismatch (operandType resultType : MLIRType)
  deriving DecidableEq, Repr

/-- The `MergeLikeOpInterface` verifier: fails if there is no data operand;
otherwise scans the data operands in order and fails at the first one whose
type differs from the type of result 0, reporting both types; otherwise
succeeds. -/
def mergeLikeVerify (op : MergeLikeOp) : Except MergeLikeVerifyError Unit :=
  if op.dataOperandTypes.length = 0 then
    Except.error MergeLikeVerifyError.noDataOperand
  else
    match op.dataOperandTypes.find? (fun t => !(t == op.resultType)) with
    | some t => Except.error (MergeLikeVerifyError.typeMismatch t op.resultType)
    | none => Except.ok ()

/-- A concrete SOST operation whose single operand is a 32-bit integer but
whose single result is a float; used to show the verifier never looks at
result ports. -/
def sostResultMismatchOp : SOSTOp :=
  { operandTypes := [MLIRType.int 32]
    resultTypes := [MLIRType.float]
    size := 1
    dataType := MLIRType.int 32 }

/-- A concrete merge-like operation with no data operand at all. -/
def emptyMergeOp : MergeLikeOp :=
  { dataOperandTypes := [], resultType := MLIRType.int 32 }

/-- The two buffer flavours of the `HandshakePlaceBuffersCustom` pass option
`type`: `oehb` (opaque elastic half buffer, sequential) and `tehb`
(transparent elastic half buffer, combinational). -/
inductive CustomBufferType where
  | oehb
  | tehb
  deriving DecidableEq, Repr

/-- An operation implementing `BufferOpInterface`: a buffer with a strictly
positive number of slots and a flavour. -/
structure BufferOp where
  slots : Nat
  bufType : CustomBufferType
  deriving DecidableEq, Repr

/-- `BufferOpInterface::getSlots`: the number of buffer slots. -/
def BufferOp.getSlots (b : BufferOp) : Nat :=
  b.slots

/-- Modelled from the spec: the handshake circuit graph as the
`HandshakePlaceBuffersCustom` and `HandshakeSpeculation` passes see it — the
implementation of both passes is not under src/ (src/ holds only their pass
declarations and the interface declarations). Operations are identified by
name, each with a number of output ports; a channel is identified by its
producer operation and output index, and may carry a spliced-in buffer
operation. -/
structure HandshakeGraph where
  opNames : List String
  numResults : String → Nat
  channelBuffer : List (String × Nat × BufferOp)

/-- Configuration errors for externally supplied position lists: an unknown
producer-operation identifier, an output index outside the producer's result
range, or a slot count outside the documented `slots > 0` range. Each error
names the offending reference. -/
inductive ConfigError where
  | unknownOperation (name : String)
  | outOfRangeResult (name : String) (outid : Nat)
  | zeroSlots (name : String) (outid : Nat)
  deriving DecidableEq, Repr

/-- Modelled from the spec: the body of the `HandshakePlaceBuffersCustom`
pass is not under src/ (src/ holds only its declaration with options `pred`,
`outid`, `slots`, `type`). Per the spec it validates the external reference
(failing with a configuration error naming the bad reference and applying no
mutation), then splices a single buffer operation with the requested slot
count and flavour into the channel `(pred, outid)`, without invoking the
solver. The result pairs the (possibly mutated) graph with an optional
error. -/
def placeBuffersCustom (g : HandshakeGraph) (pred : String) (outid : Nat)
    (slots : Nat) (ty : CustomBufferType) : HandshakeGraph × Option ConfigError :=
  if pred ∈ g.opNames then
    if outid < g.numResults pred then
      if slots = 0 then
        (g, some (ConfigError.zeroSlots pred outid))
      else
        ({ g with channelBuffer := (pred, outid, ⟨slots, ty⟩) :: g.channelBuffer },
          none)
    else
      (g, some (ConfigError.outOfRangeResult pred outid))
  else
    (g, some (ConfigError.unknownOperation pred))

/-- Query the buffer operation spliced into the channel leaving output
`outid` of operation `pred`, if any. -/
def getChannelBuffer (g : HandshakeGraph) (pred : String) (outid : Nat) :
    Option BufferOp :=
  (g.channelBuffer.find? (fun e => e.1 == pred && e.2.1 == outid)).map
    (fun e => e.2.2)

/-- The slot-type of a buffer assigned to a channel by the Buffer Placement
Optimizer: transparent (combinational pass-through) or sequential (an opaque
register, the only element that breaks a combinational cycle). -/
inductive SlotType where
  | transparent
  | sequential
  deriving DecidableEq, Repr

/-- A per-channel buffer assignment produced by the optimizer's solve:
a slot count and a slot-type. -/
structure ChannelBuffer where
  slots : Nat
  slotType : SlotType
  deriving DecidableEq, Repr

/-- A solver candidate assignment as a finite map from channel id to buffer;
a channel absent from the list receives no buffer (0 transparent slots). -/
def lookupBuffer (assign : List (Nat × ChannelBuffer)) (c : Nat) : ChannelBuffer :=
  match assign.find? (fun e => e.1 == c) with
  | some e => e.2
  | none => ⟨0, SlotType.transparent⟩

/-- A cycle (given by its member channel ids) is broken by the assignment
when some channel on it carries at least one sequential (opaque) slot. -/
def breaksCycle (assign : List (Nat × ChannelBuffer)) (cycle : List Nat) : Bool :=
  cycle.any (fun c =>
    decide (1 ≤ (lookupBuffer assign c).slots) &&
      ((lookupBuffer assign c).slotType == SlotType.sequential))

/-- The hard correctness constraint of the optimizer's formulation: every
cycle identified by the Cycle & Timing Analyzer is broken. -/
def satisfiesCycleBreaking (assign : List (Nat × ChannelBuffer))
    (cycles : List (List Nat)) : Bool :=
  cycles.all (breaksCycle assign)

/-- Outcome of a Buffer Placement Optimizer run: a solution assignment, or a
reported infeasibility (never a silently degraded solution). -/
inductive BufferPlacementResult where
  | solution (assign : List (Nat × ChannelBuffer))
  | infeasible
  deriving DecidableEq, Repr

/-- Modelled from the spec: the Buffer Placement Optimizer is not under src/.
Per the spec its MILP solve is a synchronous oracle returning a candidate
assignment or nothing; the cycle-breaking family is a hard constraint of the
formulation, so a run succeeds (returns a solution) only when the candidate
satisfies it, and reports infeasibility otherwise. -/
def bufferPlacementRun (cycles : List (List Nat))
    (candidate : Option (List (Nat × ChannelBuffer))) : BufferPlacementResult :=
  match candidate with
  | none => BufferPlacementResult.infeasible
  | some a =>
    if satisfiesCycleBreaking a cycles then BufferPlacementResult.solution a
    else BufferPlacementResult.infeasible

/-- The position list read by the `HandshakeSpeculation` pass from its JSON
file: an optional speculator position plus save and commit positions, each a
(producer operation identifier, output index) channel reference. -/
structure SpeculationPositions where
  speculator : Option (String × Nat)
  saves : List (String × Nat)
  commits : List (String × Nat)
  deriving DecidableEq, Repr

/-- Errors of the Speculation Planner: a missing speculator position in the
input file, or a bad reference to the speculator's producer operation. -/
inductive SpecError where
  | missingSpeculatorPosition
  | badSpeculatorRef (name : String)
  deriving DecidableEq, Repr

/-- Modelled from the spec: the automatic-mode derivation of save and commit
positions by the `HandshakeSpeculation` pass is not under src/. Per the spec
it is a structural search over the graph seeded only by the speculator's
channel; here it is rendered schematically as taking every channel leaving
the speculator's producer as a save candidate, which suffices to capture that
the derivation reads only the graph and the speculator position, never the
externally supplied save/commit lists. -/
def derivePositions (g : HandshakeGraph) (sp : String × Nat) :
    SpeculationPositions :=
  { speculator := some sp
    saves := (List.range (g.numResults sp.1)).map (fun i => (sp.1, i))
    commits := [] }

/-- Modelled from the spec: the splicing of speculator/save/commit operations
into existing channels (the insertion primitive of the Circuit Graph Model)
is not under src/; it is rendered as extending the operation list with the
inserted units. -/
def insertSpeculationOps (g : HandshakeGraph) (pos : SpeculationPositions) :
    HandshakeGraph :=
  { g with opNames :=
      "speculator" :: (pos.saves.map (fun _ => "save") ++
        pos.commits.map (fun _ => "commit") ++ g.opNames) }

/-- Modelled from the spec: the body of the `HandshakeSpeculation` pass is
not under src/ (src/ holds only its declaration with options `json-path` and
`automatic`, whose description states that in automatic mode "the speculator
position still needs to be specified in the JSON-formatted file"). The pass
first requires a speculator position in the parsed file — failing otherwise —
then validates its reference, then in automatic mode derives the save/commit
positions itself and in explicit mode uses the supplied ones, and inserts the
units. -/
def handshakeSpeculation (automatic : Bool) (pos : SpeculationPositions)
    (g : HandshakeGraph) : Except SpecError HandshakeGraph :=
  match pos.speculator with
  | none => Except.error SpecError.missingSpeculatorPosition
  | some sp =>
    if sp.1 ∈ g.opNames then
      Except.ok (insertSpeculationOps g
        (if automatic then derivePositions g sp else pos))
    else
      Except.error (SpecError.badSpeculatorRef sp.1)

/-- One round of the Region Annotator's forward reachability walk: keep every
already-visited operation and additionally visit the successors of every
visited operation that is not a commit of the set (exploration stops at
commit operations, which are themselves marked but not expanded). -/
def stepMark (succ : Nat → List Nat) (commits : Finset Nat)
    (marked : Finset Nat) : Finset Nat :=
  marked ∪ marked.biUnion (fun a =>
    if a ∈ commits then ∅ else (succ a).toFinset)

/-- Modelled from the spec: the body of the `SpecAnnotatePaths` pass is not
under src/ (src/ holds only its declaration). Per the spec it performs, for a
(save, commit-set) pair, a forward reachability walk from the save operation
that stops exploration at any commit of the set; here the walk is computed as
the limit of `stepMark` starting from the save operation alone, iterated
enough times (`numOps + 1`) to reach its fixed point on a graph with `numOps`
operations. -/
def annotateWalk (numOps : Nat) (succ : Nat → List Nat) (commits : Finset Nat)
    (save : Nat) : Finset Nat :=
  (stepMark succ commits)^[numOps + 1] {save}

/-- The declarative forward-reachability span of a (save, commit-set) pair:
the operations reachable from the save by steps that never leave a commit
operation of the set. It contains the save itself and every commit reached,
and nothing beyond a commit. -/
inductive ReachStop (succ : Nat → List Nat) (commits : Finset Nat)
    (save : Nat) : Nat → Prop where
  | refl : ReachStop succ commits save save
  | step {a b : Nat} : ReachStop succ commits save a → a ∉ commits →
      b ∈ succ a → ReachStop succ commits save b

/-- A post-speculation circuit as the Region Annotator sees it: `numOps`
operations with a successor relation staying inside the circuit, the
(save, commit-set) pairs created by the Speculation Planner, and the set of
operations currently carrying the `speculative` attribute. -/
structure SpecCircuit where
  numOps : Nat
  succ : Nat → List Nat
  pairs : List (Nat × Finset Nat)
  specAttr : Finset Nat
  succ_lt : ∀ a b : Nat, b ∈ succ a → b < numOps

/-- Modelled from the spec: the `SpecAnnotatePaths` pass adds the
`speculative` attribute to exactly the operations found by the reachability
walk of some (save, commit-set) pair; it reads only the circuit's structure
and rewrites the attribute set, never the structure. -/
def specAnnotatePaths (c : SpecCircuit) : SpecCircuit where
  numOps := c.numOps
  succ := c.succ
  pairs := c.pairs
  specAttr :=
    (c.pairs.map (fun p => annotateWalk c.numOps c.succ p.2 p.1)).foldl
      (fun s t => s ∪ t) ∅
  succ_lt := c.succ_lt

/-- Classifies a merge-like verification outcome: does it report an error
that names a mismatching type? -/
def namesMismatchType : Except MergeLikeVerifyError Unit → Bool
  | Except.error (MergeLikeVerifyError.typeMismatch _ _) => true
  | _ => false

/-- A concrete two-operation handshake graph used to evaluate the passes on
closed inputs: `muli0` with two output ports and `addi1` with one. -/
def bufExampleGraph : HandshakeGraph :=
  { opNames := ["muli0", "addi1"]
    numResults := fun n => if n = "muli0" then 2 else 1
    channelBuffer := [] }

/-- A concrete solver assignment placing one sequential (opaque) slot on
channel 0 and nothing elsewhere. -/
def cycleAssignExample : List (Nat × ChannelBuffer) :=
  [(0, ⟨1, SlotType.sequential⟩)]

/-- A concrete SOST operation with two 8-bit integer operands. -/
def sostExampleOp : SOSTOp :=
  { operandTypes := [MLIRType.int 8, MLIRType.int 8]
    resultTypes := [MLIRType.int 8]
    size := 2
    dataType := MLIRType.int 8 }

/-- A concrete merge-like operation whose single float operand mismatches
its 32-bit integer result. -/
def mergeMismatchOp : MergeLikeOp :=
  { dataOperandTypes := [MLIRType.float], resultType := MLIRType.int 32 }

/-- C2 counterexample: a SOST operation whose single operand is a 32-bit
integer but whose single result is a float passes the `SOSTInterface`
verifier even though its operand and result ports do not all carry the
operation's single data type — the verifier never inspects result ports. -/
theorem sostVerify_result_port_counterexample :
    sostVerify sostResultMismatchOp = Except.ok () ∧
      ((sostResultMismatchOp.operandTypes ++ sostResultMismatchOp.resultTypes).all
        (fun t => t == sostResultMismatchOp.dataType)) = false :=
  ⟨rfl, rfl⟩

/-- C2 (amended): the `SOSTInterface` verifier succeeds exactly when the
operation's size is at least 1 and every operand port carries the
operation's data type; result ports are not checked. A violation makes
verification fail with an error (the operation is never repaired). -/
theorem sostVerify_ok_iff (op : SOSTOp) :
    sostVerify op = Except.ok () ↔
      1 ≤ op.size ∧ ∀ t ∈ op.operandTypes, t = op.dataType := by
  unfold sostVerify
  by_cases hs : op.size < 1
  · rw [if_pos hs]
    constructor
    · intro h
      simp at h
    · rintro ⟨h1, -⟩
      exact absurd h1 (by omega)
  · rw [if_neg hs]
    constructor
    · intro h
      refine ⟨by omega, ?_⟩
      intro t ht
      cases hf : op.operandTypes.find? (fun t => !(t == op.dataType)) with
      | some u => rw [hf] at h; simp at h
      | none =>
        have hnone := List.find?_eq_none.mp hf t ht
        simpa using hnone
    · rintro ⟨-, hall⟩
      have hnone : op.operandTypes.find? (fun t => !(t == op.dataType)) = none := by
        rw [List.find?_eq_none]
        intro x hx
        simp [hall x hx]
      rw [hnone]

/-- C3: the default `sostIsControl` classification holds exactly when the
operation's data type is the `NoneType` (a payload-free control token). -/
theorem sostIsControl_iff_noneType (op : SOSTOp) :
    sostIsControl op = true ↔ op.dataType = MLIRType.noneType := by
  unfold sostIsControl isaNoneType
  cases op.dataType <;> simp

/-- C9 counterexample: a merge-like operation with no data operand fails
verification with the `noDataOperand` error, which names no mismatching
type — so not every verification failure reports a mismatching type. -/
theorem mergeLikeVerify_empty_counterexample :
    mergeLikeVerify emptyMergeOp = Except.error MergeLikeVerifyError.noDataOperand ∧
      namesMismatchType (mergeLikeVerify emptyMergeOp) = false :=
  ⟨rfl, rfl⟩

/-- C9 (amended): the `MergeLikeOpInterface` verifier succeeds exactly when
there is at least one data operand and every data operand carries the type
of result 0; a type-mismatch failure names an actual data operand type that
differs from the result type (the zero-operand failure is a distinct error
naming no type). -/
theorem mergeLikeVerify_characterization (op : MergeLikeOp) :
    (mergeLikeVerify op = Except.ok () ↔
      op.dataOperandTypes ≠ [] ∧ ∀ t ∈ op.dataOperandTypes, t = op.resultType) ∧
    (∀ t : MLIRType,
      mergeLikeVerify op =
          Except.error (MergeLikeVerifyError.typeMismatch t op.resultType) →
        t ∈ op.dataOperandTypes ∧ t ≠ op.resultType) := by
  constructor
  · unfold mergeLikeVerify
    by_cases hs : op.dataOperandTypes.length = 0
    · rw [if_pos hs]
      constructor
      · intro h
        simp at h
      · rintro ⟨hne, -⟩
        exact absurd (List.length_eq_zero.mp hs) hne
    · rw [if_neg hs]
      constructor
      · intro h
        refine ⟨fun hnil => hs (by simp [hnil]), ?_⟩
        intro t ht
        cases hf : op.dataOperandTypes.find? (fun t => !(t == op.resultType)) with
        | some u => rw [hf] at h; simp at h
        | none =>
          have hnone := List.find?_eq_none.mp hf t ht
          simpa using hnone
      · rintro ⟨-, hall⟩
        have hnone : op.dataOperandTypes.find? (fun t => !(t == op.resultType)) = none := by
          rw [List.find?_eq_none]
          intro x hx
          simp [hall x hx]
        rw [hnone]
  · intro t h
    unfold mergeLikeVerify at h
    by_cases hs : op.dataOperandTypes.length = 0
    · rw [if_pos hs] at h
      simp at h
    · rw [if_neg hs] at h
      cases hf : op.dataOperandTypes.find? (fun t => !(t == op.resultType)) with
      | some u =>
        rw [hf] at h
        have hu : u = t := by
          injection h with h'
          cases h'
          rfl
        subst hu
        have hmem := List.mem_of_find?_eq_some hf
        have hpred := List.find?_some hf
        simp at hpred
        exact ⟨hmem, hpred⟩
      | none => rw [hf] at h; simp at h

/-- C9 witness: applying the characterization to a concrete merge-like
operation whose float operand mismatches its integer result. -/
theorem mergeLikeVerify_characterization_witness :
    MLIRType.float ∈ mergeMismatchOp.dataOperandTypes ∧
      MLIRType.float ≠ mergeMismatchOp.resultType :=
  (mergeLikeVerify_characterization mergeMismatchOp).2 MLIRType.float rfl

/-- C10: the default `SOSTInterface` implementations — `getDataType` yields
the type of the first operand (and is undefined, `none`, exactly when the
operation has no operand, an edge case the interface does not surface), and
`getSize` yields the number of operands. -/
theorem sost_default_implementations (op : SOSTOp) :
    (∀ (t : MLIRType) (rest : List MLIRType),
        op.operandTypes = t :: rest → op.getDataTypeDefault = some t) ∧
    op.getSizeDefault = op.operandTypes.length ∧
    (op.getDataTypeDefault = none ↔ op.operandTypes = []) := by
  refine ⟨?_, rfl, ?_⟩
  · intro t rest h
    unfold SOSTOp.getDataTypeDefault
    rw [h]
    rfl
  · unfold SOSTOp.getDataTypeDefault
    cases op.operandTypes <;> simp

/-- C10 witness: on a concrete two-operand operation the default data type
is the first operand's type. -/
theorem sost_default_implementations_witness :
    sostExampleOp.getDataTypeDefault = some (MLIRType.int 8) :=
  (sost_default_implementations sostExampleOp).1 (MLIRType.int 8)
    [MLIRType.int 8] rfl

/-- C1: whenever a Buffer Placement Optimizer run succeeds with a solution,
every cycle identified by the Cycle & Timing Analyzer contains at least one
channel assigned an opaque (sequential) buffer with at least one slot. -/
theorem bufferPlacementRun_breaks_cycles
    (cycles : List (List Nat)) (candidate : Option (List (Nat × ChannelBuffer)))
    (assign : List (Nat × ChannelBuffer))
    (h : bufferPlacementRun cycles candidate = BufferPlacementResult.solution assign) :
    ∀ cyc ∈ cycles, ∃ c ∈ cyc,
      1 ≤ (lookupBuffer assign c).slots ∧
      (lookupBuffer assign c).slotType = SlotType.sequential := by
  intro cyc hcyc
  cases candidate with
  | none => simp [bufferPlacementRun] at h
  | some a =>
    simp only [bufferPlacementRun] at h
    by_cases hc : satisfiesCycleBreaking a cycles = true
    · rw [if_pos hc] at h
      injection h with h'
      rw [h'] at hc
      have hb : breaksCycle assign cyc = true :=
        List.all_eq_true.mp hc cyc hcyc
      unfold breaksCycle at hb
      obtain ⟨c, hcmem, hcb⟩ := List.any_eq_true.mp hb
      rw [Bool.and_eq_true] at hcb
      refine ⟨c, hcmem, of_decide_eq_true hcb.1, ?_⟩
      exact eq_of_beq hcb.2
    · rw [if_neg hc] at h
      simp at h

/-- C1 witness: a single cycle through channels 0 and 1 and a solver
candidate placing one sequential slot on channel 0. -/
theorem bufferPlacementRun_breaks_cycles_witness :
    ∃ c ∈ [0, 1], 1 ≤ (lookupBuffer cycleAssignExample c).slots ∧
      (lookupBuffer cycleAssignExample c).slotType = SlotType.sequential :=
  bufferPlacementRun_breaks_cycles [[0, 1]] (some cycleAssignExample)
    cycleAssignExample (by decide) [0, 1] (by decide)

/-- C4: for a valid request — existing producer, in-range output index,
strictly positive slot count — the manual-override pass succeeds (no error
and no solver involved) and querying the affected channel's buffer returns
exactly the requested slot count and buffer type. -/
theorem placeBuffersCustom_roundtrip (g : HandshakeGraph) (pred : String)
    (outid slots : Nat) (ty : CustomBufferType)
    (h1 : pred ∈ g.opNames) (h2 : outid < g.numResults pred) (h3 : 0 < slots) :
    (placeBuffersCustom g pred outid slots ty).2 = none ∧
    ∃ b : BufferOp,
      getChannelBuffer (placeBuffersCustom g pred outid slots ty).1 pred outid =
          some b ∧
        b.getSlots = slots ∧ b.bufType = ty := by
  unfold placeBuffersCustom
  rw [if_pos h1, if_pos h2, if_neg (Nat.pos_iff_ne_zero.mp h3)]
  refine ⟨rfl, ⟨⟨slots, ty⟩, ?_, rfl, rfl⟩⟩
  unfold getChannelBuffer
  simp

/-- C4 witness: placing a 3-slot `oehb` buffer on output 1 of `muli0` in the
concrete example graph and reading it back. -/
theorem placeBuffersCustom_roundtrip_witness :
    (placeBuffersCustom bufExampleGraph "muli0" 1 3 CustomBufferType.oehb).2 =
        none ∧
    ∃ b : BufferOp,
      getChannelBuffer
          (placeBuffersCustom bufExampleGraph "muli0" 1 3 CustomBufferType.oehb).1
          "muli0" 1 = some b ∧
        b.getSlots = 3 ∧ b.bufType = CustomBufferType.oehb :=
  placeBuffersCustom_roundtrip bufExampleGraph "muli0" 1 3 CustomBufferType.oehb
    (by decide) (by decide) (by decide)

/-- C7: the Speculation Planner fails with a missing-speculator error (in
both automatic and explicit mode) when no speculator position is supplied in
the position file, and in automatic mode its outcome is independent of the
externally supplied save and commit positions (it derives them itself). -/
theorem handshakeSpeculation_requires_speculator :
    (∀ (automatic : Bool) (pos : SpeculationPositions) (g : HandshakeGraph),
        pos.speculator = none →
        handshakeSpeculation automatic pos g =
          Except.error SpecError.missingSpeculatorPosition) ∧
    (∀ (sp : String × Nat)
        (saves1 commits1 saves2 commits2 : List (String × Nat))
        (g : HandshakeGraph),
        handshakeSpeculation true ⟨some sp, saves1, commits1⟩ g =
          handshakeSpeculation true ⟨some sp, saves2, commits2⟩ g) := by
  constructor
  · intro automatic pos g h
    unfold handshakeSpeculation
    rw [h]
  · intro sp saves1 commits1 saves2 commits2 g
    rfl

/-- C7 witness: an automatic-mode invocation on the concrete example graph
with no speculator position fails with the missing-speculator error. -/
theorem handshakeSpeculation_requires_speculator_witness :
    handshakeSpeculation true ⟨none, [], []⟩ bufExampleGraph =
      Except.error SpecError.missingSpeculatorPosition :=
  handshakeSpeculation_requires_speculator.1 true ⟨none, [], []⟩
    bufExampleGraph rfl

/-- C8: a position list referencing a non-existent producer operation makes
the manual buffer pass fail with a configuration error naming that
identifier, and an in-range producer with an out-of-range output index makes
it fail with an error naming that reference; in both cases the returned
graph is exactly the input graph (no partial mutation). -/
theorem placeBuffersCustom_bad_reference (g : HandshakeGraph) (pred : String)
    (outid slots : Nat) (ty : CustomBufferType) :
    (pred ∉ g.opNames →
      placeBuffersCustom g pred outid slots ty =
        (g, some (ConfigError.unknownOperation pred))) ∧
    (pred ∈ g.opNames → g.numResults pred ≤ outid →
      placeBuffersCustom g pred outid slots ty =
        (g, some (ConfigError.outOfRangeResult pred outid))) := by
  constructor
  · intro h
    unfold placeBuffersCustom
    rw [if_neg h]
  · intro h1 h2
    unfold placeBuffersCustom
    rw [if_pos h1, if_neg (by omega)]

/-- C8 witness: a reference to the absent operation `gemm12` fails naming
`gemm12` and leaves the concrete example graph unchanged. -/
theorem placeBuffersCustom_bad_reference_witness :
    placeBuffersCustom bufExampleGraph "gemm12" 0 1 CustomBufferType.tehb =
      (bufExampleGraph, some (ConfigError.unknownOperation "gemm12")) :=
  (placeBuffersCustom_bad_reference bufExampleGraph "gemm12" 0 1
    CustomBufferType.tehb).1 (by decide)

/-- Membership in one round of the annotator's walk: an operation is visited
after the round iff it was already visited or is the successor of a visited
non-commit operation. -/
theorem mem_stepMark (succ : Nat → List Nat) (commits m : Finset Nat) (x : Nat) :
    x ∈ stepMark succ commits m ↔
      x ∈ m ∨ ∃ a, a ∈ m ∧ a ∉ commits ∧ x ∈ succ a := by
  unfold stepMark
  rw [Finset.mem_union, Finset.mem_biUnion]
  apply or_congr_right
  constructor
  · rintro ⟨a, ha, hx⟩
    by_cases hc : a ∈ commits
    · rw [if_pos hc] at hx
      simp at hx
    · rw [if_neg hc] at hx
      exact ⟨a, ha, hc, List.mem_toFinset.mp hx⟩
  · rintro ⟨a, ha, hc, hx⟩
    refine ⟨a, ha, ?_⟩
    rw [if_neg hc]
    exact List.mem_toFinset.mpr hx

/-- A walk round never forgets an already-visited operation. -/
theorem subset_stepMark (succ : Nat → List Nat) (commits m : Finset Nat) :
    m ⊆ stepMark succ commits m := by
  unfold stepMark
  exact Finset.subset_union_left

/-- A set-enlarging step function on finsets confined to a finite universe
reaches a fixed point after at most `card` of the universe many iterations
from a nonempty start. -/
theorem iterate_fix_of_bound (f : Finset Nat → Finset Nat)
    (hmono : ∀ m, m ⊆ f m) (U : Finset Nat) (hU : ∀ m, m ⊆ U → f m ⊆ U)
    (s : Finset Nat) (hs : s ⊆ U) (hne : s.Nonempty) (n : Nat)
    (hn : U.card ≤ n) :
    f (f^[n] s) = f^[n] s := by
  have hsub : ∀ j, f^[j] s ⊆ U := by
    intro j
    induction j with
    | zero => simpa using hs
    | succ j ih =>
      rw [Function.iterate_succ_apply']
      exact hU _ ih
  have key : ∀ j, f (f^[j] s) = f^[j] s ∨ j < (f^[j] s).card := by
    intro j
    induction j with
    | zero =>
      right
      simpa using Finset.card_pos.mpr hne
    | succ j ih =>
      by_cases hf : f (f^[j] s) = f^[j] s
      · left
        rw [Function.iterate_succ_apply', hf]
        exact hf
      · right
        rcases ih with h | h
        · exact absurd h hf
        · have hss : f^[j] s ⊂ f (f^[j] s) :=
            Finset.ssubset_iff_subset_ne.mpr ⟨hmono _, fun he => hf he.symm⟩
          have hcard := Finset.card_lt_card hss
          rw [Function.iterate_succ_apply']
          omega
  have hfix : f (f^[U.card] s) = f^[U.card] s := by
    rcases key U.card with h | h
    · exact h
    · have := Finset.card_le_card (hsub U.card)
      omega
  obtain ⟨k, rfl⟩ : ∃ k, n = k + U.card := ⟨n - U.card, by omega⟩
  rw [Function.iterate_add_apply, Function.iterate_fixed hfix]
  exact hfix

/-- The annotator's walk is a fixed point of the walk round: on a graph with
`numOps` operations, `numOps + 1` rounds from the save operation saturate. -/
theorem annotateWalk_fix (numOps : Nat) (succ : Nat → List Nat)
    (commits : Finset Nat) (save : Nat)
    (hsucc : ∀ a b : Nat, b ∈ succ a → b < numOps) :
    stepMark succ commits (annotateWalk numOps succ commits save) =
      annotateWalk numOps succ commits save := by
  unfold annotateWalk
  apply iterate_fix_of_bound (U := insert save (Finset.range numOps))
  · exact fun m => subset_stepMark succ commits m
  · intro m hm x hx
    rcases (mem_stepMark succ commits m x).mp hx with hx | ⟨a, _, _, hx⟩
    · exact hm hx
    · exact Finset.mem_insert_of_mem (Finset.mem_range.mpr (hsucc a x hx))
  · simp
  · exact Finset.singleton_nonempty save
  · calc (insert save (Finset.range numOps)).card
        ≤ (Finset.range numOps).card + 1 := Finset.card_insert_le _ _
      _ = numOps + 1 := by rw [Finset.card_range]

/-- Soundness of the annotator's walk: every operation it visits lies on a
forward path from the save operation that stops at commit operations. -/
theorem annotateWalk_sound (numOps : Nat) (succ : Nat → List Nat)
    (commits : Finset Nat) (save : Nat) :
    ∀ x ∈ annotateWalk numOps succ commits save,
      ReachStop succ commits save x := by
  unfold annotateWalk
  generalize numOps + 1 = k
  induction k with
  | zero =>
    intro x hx
    simp at hx
    subst hx
    exact ReachStop.refl
  | succ k ih =>
    intro x hx
    rw [Function.iterate_succ_apply'] at hx
    rcases (mem_stepMark succ commits _ x).mp hx with hx | ⟨a, ha, hc, hx⟩
    · exact ih x hx
    · exact ReachStop.step (ih a ha) hc hx

/-- Completeness of the annotator's walk: every operation on a forward path
from the save operation that stops at commit operations is visited. -/
theorem annotateWalk_complete (numOps : Nat) (succ : Nat → List Nat)
    (commits : Finset Nat) (save : Nat)
    (hsucc : ∀ a b : Nat, b ∈ succ a → b < numOps) :
    ∀ x : Nat, ReachStop succ commits save x →
      x ∈ annotateWalk numOps succ commits save := by
  intro x hx
  induction hx with
  | refl =>
    unfold annotateWalk
    have hsave : ∀ k, save ∈ (stepMark succ commits)^[k] ({save} : Finset Nat) := by
      intro k
      induction k with
      | zero => simp
      | succ k ih =>
        rw [Function.iterate_succ_apply']
        exact subset_stepMark succ commits _ ih
    exact hsave (numOps + 1)
  | step hra hc hsuc ih =>
    rw [← annotateWalk_fix numOps succ commits save hsucc]
    exact (mem_stepMark succ commits _ _).mpr (Or.inr ⟨_, ih, hc, hsuc⟩)

/-- Membership in a left fold of finset unions over an empty accumulator. -/
theorem mem_foldl_union (l : List (Finset Nat)) (x : Nat) :
    x ∈ l.foldl (fun s t => s ∪ t) ∅ ↔ ∃ t ∈ l, x ∈ t := by
  suffices h : ∀ acc : Finset Nat,
      x ∈ l.foldl (fun s t => s ∪ t) acc ↔ x ∈ acc ∨ ∃ t ∈ l, x ∈ t by
    simpa using h ∅
  induction l with
  | nil => intro acc; simp
  | cons hd tl ih =>
    intro acc
    simp only [List.foldl_cons]
    rw [ih (acc ∪ hd)]
    simp only [Finset.mem_union, List.mem_cons]
    constructor
    · rintro ((h | h) | ⟨t, ht, h⟩)
      · exact Or.inl h
      · exact Or.inr ⟨hd, Or.inl rfl, h⟩
      · exact Or.inr ⟨t, Or.inr ht, h⟩
    · rintro (h | ⟨t, ht | ht, h⟩)
      · exact Or.inl (Or.inl h)
      · exact Or.inl (Or.inr (ht ▸ h))
      · exact Or.inr ⟨t, ht, h⟩

/-- C5: the Region Annotator marks exactly the operations lying on a forward
reachability span of some (save, commit-set) pair of the post-insertion
circuit — the save itself, every operation reached from it without stepping
past a commit of the set, and the commits so reached — and marks no other
operation. -/
theorem specAnnotatePaths_marks_exactly (c : SpecCircuit) (x : Nat) :
    x ∈ (specAnnotatePaths c).specAttr ↔
      ∃ p ∈ c.pairs, ReachStop c.succ p.2 p.1 x := by
  simp only [specAnnotatePaths]
  rw [mem_foldl_union]
  constructor
  · rintro ⟨t, ht, hx⟩
    obtain ⟨p, hp, rfl⟩ := List.mem_map.mp ht
    exact ⟨p, hp, annotateWalk_sound c.numOps c.succ p.2 p.1 x hx⟩
  · rintro ⟨p, hp, hr⟩
    refine ⟨annotateWalk c.numOps c.succ p.2 p.1,
      List.mem_map.mpr ⟨p, hp, rfl⟩, ?_⟩
    exact annotateWalk_complete c.numOps c.succ p.2 p.1 c.succ_lt x hr

/-- C6: the Region Annotator is idempotent — running it twice on the same
post-speculation circuit produces the identical membership marking (and
circuit), because it reads only the circuit's structure and rewrites the
attribute set. -/
theorem specAnnotatePaths_idempotent (c : SpecCircuit) :
    specAnnotatePaths (specAnnotatePaths c) = specAnnotatePaths c :=
  rfl
